import Mathlib

/-!
Verification of the cognitive memory engine (scripts/memory-utils.py and the
server-side routines installed by scripts/setup-db-v2.py) against its
natural-language specification.

Shallow embedding conventions:
* timestamps are rational numbers of seconds (the SQL TIMESTAMPTZ clock);
  the ambient clock NOW() is passed explicitly as a parameter `now`;
* float arithmetic is modelled over the reals; `math.exp` is `Real.exp`;
* database numeric columns (stability, importance, strength, similarity)
  are rationals, cast into the reals where the code computes retention;
* UUIDs generated by `gen_random_uuid()` are modelled by a fresh-counter:
  a `DB` state carries `nextId` and every insert uses it and bumps it;
* the embedding provider (OpenAI), the importance scorer, the topic
  extractor and the summarizer are external ports: they enter as function
  parameters `sim`, `embed`, `scoreImp`, `extractTop`, `summarize`;
* a SQL `SELECT ... ORDER BY k` is a sort of the row list by `k`; rows on
  equal keys are returned in storage order (PostgreSQL leaves tie order
  unspecified, so no theorem below relies on the tie order);
* the Python dict `topic_groups` preserves insertion order (Python >= 3.7),
  so its iteration order is the order of first encounter of each topic.
-/

namespace CogMem

/-- The CHECK constraint of `memories.memory_type`. -/
inductive MemoryType where
  | episodic
  | semantic
  | procedural
deriving DecidableEq, BEq

/-- A row of the `memories` table (setup-db-v2.py, CREATE TABLE memories),
with the embedding vector abstracted to a type `E`. -/
structure Memory (E : Type) where
  id : ℕ
  agent_id : String
  content : String
  embedding : E
  memory_type : MemoryType
  topics : List String
  created_at : ℚ
  event_date : Option String
  expires_at : Option String
  importance : ℚ
  stability : ℚ
  last_accessed : ℚ
  access_count : ℕ
  source_channel : Option String
  source_session : Option String
  is_summary : Bool
  summarizes : List ℕ
  is_deleted : Bool
deriving DecidableEq

/-- A row of the `memory_links` table (setup-db-v2.py). -/
structure Link where
  source_id : ℕ
  target_id : ℕ
  strength : ℚ
  link_type : String
  created_at : ℚ
  updated_at : ℚ
deriving DecidableEq

/-- Database state: the two tables plus the fresh-id counter that stands in
for `gen_random_uuid()`. -/
structure DB (E : Type) where
  nextId : ℕ
  memories : List (Memory E)
  links : List Link

/-- `calculate_retention` (memory-utils.py lines 49-58; the identical SQL
function in setup-db-v2.py lines 114-136).  `now - la` is the elapsed time
in seconds. -/
noncomputable def calculate_retention (stability importance la now : ℝ) : ℝ :=
  max 0 (min 1 (Real.exp (-((now - la) / 86400) /
    (if stability * (1 + importance * 2) * 30 < 1 then 1
     else stability * (1 + importance * 2) * 30))))

/-- Retention of a stored row at clock time `now`. -/
noncomputable def retentionOf {E : Type} (now : ℚ) (m : Memory E) : ℝ :=
  calculate_retention (m.stability : ℝ) (m.importance : ℝ) (m.last_accessed : ℝ) (now : ℝ)

/-- Modelled from the spec (section 4.1): retention written as
`clamp(exp(-days_elapsed / tau), 0, 1)` with `tau = max(1, s * (1 + 2 i) * 30)`.
Used only to compare the code's definition with the spec's formula. -/
noncomputable def retentionSpec (s i la now : ℝ) : ℝ :=
  max 0 (min 1 (Real.exp (-((now - la) / 86400) / max 1 (s * (1 + 2 * i) * 30))))

/-- The claim C1 sentence, second half: concrete scenario from the spec. -/
noncomputable def retentionScenario : ℝ :=
  calculate_retention (3/10) (1/2) 0 864000

/-- **C1.** For every stability `s`, importance `i`, last-accessed time `la`
and query time `now`, the retention computed by `calculate_retention` equals
`clamp(exp(-d / tau), 0, 1)` with `d = (now - la)/86400` (days) and
`tau = max(1, s * (1 + 2 i) * 30)`; and for `s = 0.3`, `i = 0.5` and
`la = now - 10 days` (10 days = 864000 s) the result is `exp(-10/18)`. -/
theorem claim_C1_retention_formula :
    (∀ s i la now : ℝ, calculate_retention s i la now = retentionSpec s i la now) ∧
    retentionScenario = Real.exp (-(10/18)) := by
  constructor
  · intro s i la now
    unfold calculate_retention retentionSpec
    have hboost : s * (1 + i * 2) * 30 = s * (1 + 2 * i) * 30 := by ring
    rw [hboost]
    rcases lt_or_le (s * (1 + 2 * i) * 30) 1 with h | h
    · rw [if_pos h, max_eq_left h.le]
    · rw [if_neg (not_lt.mpr h), max_eq_right h]
  · unfold retentionScenario calculate_retention
    rw [if_neg (by norm_num)]
    have harg : -(((864000:ℝ) - 0) / 86400) / ((3:ℝ)/10 * (1 + 1/2 * 2) * 30) = -(10/18) := by
      norm_num
    rw [harg]
    have hle : Real.exp (-((10:ℝ)/18)) ≤ 1 := by
      rw [Real.exp_le_one_iff]; norm_num
    rw [min_eq_right hle, max_eq_right (Real.exp_nonneg _)]

/-- `reinforce_memory` (setup-db-v2.py lines 140-165).  The SELECT INTO
fetches the row with the given id (ids are unique: primary key); when no row
matches, the trailing UPDATE touches nothing and the routine returns without
error.  `0.1 * spacing_bonus` is written `(1/10) * ...`. -/
def reinforceMemory {E : Type} (now : ℚ) (pid : ℕ) (db : List (Memory E)) :
    List (Memory E) :=
  match db.find? (fun m => m.id == pid) with
  | none => db
  | some r =>
    let newStab := min 1 (r.stability + (1/10) * min 2 (((now - r.last_accessed) / 86400) / 7))
    db.map (fun m =>
      if m.id == pid then
        { m with last_accessed := now, access_count := m.access_count + 1,
                 stability := newStab }
      else m)

/-- One half of `strengthen_link` (setup-db-v2.py lines 169-189): INSERT of
`(a, b, 0.5)` with ON CONFLICT on the `(source_id, target_id)` primary key
updating `strength` to `LEAST(1.0, strength + increment)`. -/
def upsertLink (now : ℚ) (a b : ℕ) (inc : ℚ) (links : List Link) : List Link :=
  if links.any (fun l => l.source_id == a && l.target_id == b) then
    links.map (fun l =>
      if l.source_id == a && l.target_id == b then
        { l with strength := min 1 (l.strength + inc), updated_at := now }
      else l)
  else
    links ++ [{ source_id := a, target_id := b, strength := 1/2,
                link_type := "association", created_at := now, updated_at := now }]

/-- `strengthen_link(p_source_id, p_target_id, p_increment)`: both directions,
in one transaction. -/
def strengthenLink (now : ℚ) (src tgt : ℕ) (inc : ℚ) (links : List Link) : List Link :=
  upsertLink now tgt src inc (upsertLink now src tgt inc links)

/-- The Python default of `link_memories`' `strength` argument
(memory-utils.py line 440). -/
def linkDefaultStrength : ℚ := 1/2

/-- `link_memories` (memory-utils.py lines 440-452): it runs
`SELECT strengthen_link(source, target, strength)` — its `strength` argument
is passed as the SQL routine's `p_increment`. -/
def linkMemories (now : ℚ) (src tgt : ℕ) (strength : ℚ) (links : List Link) : List Link :=
  strengthenLink now src tgt strength links

/-- `ORDER BY similarity DESC LIMIT 1`: a row of maximal key (on ties the
earlier row is kept; PostgreSQL leaves the tie choice unspecified). -/
def argmaxQ {α : Type} (key : α → ℚ) : List α → Option α
  | [] => none
  | x :: xs =>
    match argmaxQ key xs with
    | none => some x
    | some y => if key x < key y then some y else some x

/-- Result envelope of `store_memory`. -/
structure StoreResult where
  action : String
  id : ℕ
  similarity : Option ℚ
deriving DecidableEq

/-- The row written by the INSERT of `store_memory` together with the column
defaults of the `memories` schema: `stability` 0.3, `last_accessed` NOW(),
`access_count` 0, `is_summary` false, `summarizes` empty, `is_deleted`
false. -/
def newMemoryRow {E : Type} (id : ℕ) (agent content : String) (emb : E)
    (memory_type : MemoryType) (topics : List String) (now : ℚ)
    (event_date expires_at : Option String) (importance : ℚ)
    (source_channel source_session : Option String) : Memory E :=
  { id := id, agent_id := agent, content := content, embedding := emb,
    memory_type := memory_type, topics := topics, created_at := now,
    event_date := event_date, expires_at := expires_at,
    importance := importance, stability := 3/10, last_accessed := now,
    access_count := 0, source_channel := source_channel,
    source_session := source_session, is_summary := false, summarizes := [],
    is_deleted := false }

/-- `store_memory` (memory-utils.py lines 61-152).  External ports enter as
parameters: `sim q e` is the cosine similarity `1 - (e <=> q)` reported by
pgvector, `embed` is `get_embedding`, `scoreImp` is `score_importance`,
`extractTop` is `extract_topics`.  `importance?`/`topics?` are the optional
arguments (`None` when absent); Python's falsy test `not topics` also treats
an explicitly given empty list as absent. -/
def storeMemory {E : Type} (sim : E → E → ℚ) (embed : String → E)
    (scoreImp : String → ℚ) (extractTop : String → List String)
    (now : ℚ) (agent content : String) (memory_type : MemoryType)
    (importance? : Option ℚ) (topics? : Option (List String))
    (event_date expires_at source_channel source_session : Option String)
    (skip_dedup : Bool) (dedup_threshold : ℚ) (auto_score auto_topics : Bool)
    (st : DB E) : StoreResult × DB E :=
  let importance :=
    if auto_score && importance?.isNone then scoreImp content
    else importance?.getD (1/2)
  let topics :=
    if auto_topics && (topics?.getD []).isEmpty then extractTop content
    else topics?.getD []
  let emb := embed content
  let dedupHit : Option (Memory E) :=
    if skip_dedup then none
    else argmaxQ (fun m => sim emb m.embedding)
      (st.memories.filter (fun m =>
        m.agent_id == agent && !m.is_deleted &&
        decide (dedup_threshold < sim emb m.embedding)))
  match dedupHit with
  | some similar =>
    ({ action := "reinforced", id := similar.id,
       similarity := some (sim emb similar.embedding) },
     { st with memories := reinforceMemory now similar.id st.memories })
  | none =>
    ({ action := "created", id := st.nextId, similarity := none },
     { st with
       nextId := st.nextId + 1,
       memories := st.memories ++
         [newMemoryRow st.nextId agent content emb memory_type topics now
           event_date expires_at importance source_channel source_session] })

/-- **C10.** Calling the server-side `reinforce_memory` routine with an id
matching no row leaves every stored memory unchanged (and, being total, it
completes without an error). -/
theorem claim_C10_reinforce_missing_id {E : Type} (now : ℚ) (pid : ℕ)
    (db : List (Memory E)) (h : pid ∉ db.map Memory.id) :
    reinforceMemory now pid db = db := by
  have hf : db.find? (fun m => m.id == pid) = none := by
    rw [List.find?_eq_none]
    intro m hm
    simp only [beq_iff_eq]
    intro he
    exact h (by rw [← he]; exact List.mem_map_of_mem Memory.id hm)
  simp [reinforceMemory, hf]

/-- A concrete memory row used as a witness input. -/
def memW : Memory ℚ :=
  { id := 0, agent_id := "main", content := "note", embedding := 0,
    memory_type := MemoryType.episodic, topics := [], created_at := 0,
    event_date := none, expires_at := none, importance := 1/2,
    stability := 3/10, last_accessed := 0, access_count := 0,
    source_channel := none, source_session := none, is_summary := false,
    summarizes := [], is_deleted := false }

/-- Witness for C10: reinforcing id 5 over a store holding only id 0
changes nothing. -/
theorem claim_C10_witness : reinforceMemory 7 5 [memW] = [memW] :=
  claim_C10_reinforce_missing_id 7 5 [memW] (by decide)

/-- Reinforcing the only row of a one-row store. -/
theorem reinforce_single {E : Type} (now : ℚ) (m : Memory E) :
    reinforceMemory now m.id [m] =
      [{ m with
          last_accessed := now,
          access_count := m.access_count + 1,
          stability := min 1 (m.stability +
            (1/10) * min 2 (((now - m.last_accessed) / 86400) / 7)) }] := by
  simp [reinforceMemory]

/-- **C5.** Reinforcing a found row sets `last_accessed` to `now`, adds 1 to
`access_count` and sets stability to
`min 1 (stability + 0.1 * min 2 (days_since_access / 7))` (first part);
two back-to-back reinforcements within one second raise stability by at most
`0.02 = 1/50` the second time and never lower it (second part); one
reinforcement of an in-range row never lowers stability and never pushes it
above 1 (third part). -/
theorem claim_C5_reinforcement :
    (∀ (E : Type) (now : ℚ) (pid : ℕ) (db : List (Memory E)) (r : Memory E),
      db.find? (fun m => m.id == pid) = some r →
      List.Forall₂ (fun m m' =>
        if m.id = pid then
          m'.last_accessed = now ∧ m'.access_count = m.access_count + 1 ∧
          m'.stability =
            min 1 (r.stability + (1/10) * min 2 (((now - r.last_accessed) / 86400) / 7))
        else m' = m) db (reinforceMemory now pid db)) ∧
    (∀ (E : Type) (m : Memory E) (t1 t2 : ℚ), t1 ≤ t2 → t2 ≤ t1 + 1 →
      ∀ m1 ∈ reinforceMemory t1 m.id [m], ∀ m2 ∈ reinforceMemory t2 m1.id [m1],
        m1.stability ≤ m2.stability ∧ m2.stability - m1.stability ≤ 1/50 ∧
        m2.stability ≤ 1) ∧
    (∀ (E : Type) (m : Memory E) (now : ℚ), m.last_accessed ≤ now →
      m.stability ≤ 1 →
      ∀ m' ∈ reinforceMemory now m.id [m],
        m.stability ≤ m'.stability ∧ m'.stability ≤ 1) := by
  refine ⟨?_, ?_, ?_⟩
  · intro E now pid db r h
    rw [reinforceMemory, h]
    rw [List.forall₂_map_right_iff]
    rw [List.forall₂_same]
    intro m _
    by_cases hm : m.id = pid
    · simp [hm]
    · simp [hm]
  · intro E m t1 t2 h12 h21 m1 hm1 m2 hm2
    rw [reinforce_single] at hm1
    simp only [List.mem_singleton] at hm1
    subst hm1
    rw [reinforce_single] at hm2
    simp only [List.mem_singleton] at hm2
    subst hm2
    dsimp only
    set s1 := min 1 (m.stability + (1/10) * min 2 (((t1 - m.last_accessed) / 86400) / 7))
      with hs1
    set b2 := min 2 (((t2 - t1) / 86400) / 7) with hb2
    have hd0 : (0:ℚ) ≤ ((t2 - t1) / 86400) / 7 := by
      have : (0:ℚ) ≤ t2 - t1 := by linarith
      positivity
    have hb20 : 0 ≤ b2 := le_min (by norm_num) hd0
    have hb2le : b2 ≤ 1/604800 := by
      have hy : ((t2 - t1) / 86400) / 7 ≤ 1/604800 := by linarith
      exact le_trans (min_le_right _ _) hy
    have hs1le : s1 ≤ 1 := min_le_left _ _
    refine ⟨?_, ?_, ?_⟩
    · exact le_min hs1le (by linarith [hb20])
    · have := min_le_right 1 (s1 + 1/10 * b2)
      linarith
    · exact min_le_left _ _
  · intro E m now hla hst m' hm'
    rw [reinforce_single] at hm'
    simp only [List.mem_singleton] at hm'
    subst hm'
    dsimp only
    have hd0 : (0:ℚ) ≤ ((now - m.last_accessed) / 86400) / 7 := by
      have : (0:ℚ) ≤ now - m.last_accessed := by linarith
      positivity
    have hb0 : 0 ≤ min 2 (((now - m.last_accessed) / 86400) / 7) :=
      le_min (by norm_num) hd0
    exact ⟨le_min hst (by linarith), min_le_left _ _⟩

/-- Witness for C5: a one-row store reinforced at times 0 and then 1/2 second
later; all three parts applied at this input. -/
theorem claim_C5_witness :
    (List.Forall₂ (fun m m' =>
        if m.id = (0:ℕ) then
          m'.last_accessed = (5:ℚ) ∧ m'.access_count = m.access_count + 1 ∧
          m'.stability =
            min 1 (memW.stability + (1/10) * min 2 ((((5:ℚ) - memW.last_accessed) / 86400) / 7))
        else m' = m) [memW] (reinforceMemory 5 0 [memW])) ∧
    (∀ m1 ∈ reinforceMemory 0 memW.id [memW], ∀ m2 ∈ reinforceMemory (1/2) m1.id [m1],
      m1.stability ≤ m2.stability ∧ m2.stability - m1.stability ≤ 1/50 ∧
      m2.stability ≤ 1) ∧
    (∀ m' ∈ reinforceMemory 5 memW.id [memW],
      memW.stability ≤ m'.stability ∧ m'.stability ≤ 1) := by
  refine ⟨?_, ?_, ?_⟩
  · exact claim_C5_reinforcement.1 ℚ 5 0 [memW] memW (by rfl)
  · exact claim_C5_reinforcement.2.1 ℚ memW 0 (1/2) (by norm_num) (by norm_num)
  · exact claim_C5_reinforcement.2.2 ℚ memW 5 (by norm_num [memW]) (by norm_num [memW])

/-- **C6 (counterexample).** Calling `link_memories` twice on the fresh pair
`(0, 1)` with default arguments (`strength = 0.5`, which the wrapper passes
to `strengthen_link` as the increment) leaves both directed rows with
strength `min(1, 0.5 + 0.5) = 1`, not `min(1, 0.5 + 0.1) = 0.6`. -/
theorem claim_C6_counterexample :
    (linkMemories 0 0 1 linkDefaultStrength
        (linkMemories 0 0 1 linkDefaultStrength [])).map Link.strength = [1, 1] ∧
    (1 : ℚ) ≠ 3/5 := by
  constructor
  · simp [linkMemories, strengthenLink, upsertLink, linkDefaultStrength]
    norm_num
  · norm_num

/-- **C6 (amended).** After calling the link operation twice on a pair
`(a, b)` of distinct ids with default arguments and no pre-existing edge in
either direction, both link rows `(a, b)` and `(b, a)` exist and each has
strength `min 1 (1/2 + 1/2) = 1` (the wrapper forwards its `strength`
default `0.5` as the SQL increment, so the second call adds `0.5`). -/
theorem upsertLink_absent (now : ℚ) (a b : ℕ) (inc : ℚ) (links : List Link)
    (h : links.any (fun l => l.source_id == a && l.target_id == b) = false) :
    upsertLink now a b inc links =
      links ++ [{ source_id := a, target_id := b, strength := 1/2,
                  link_type := "association", created_at := now, updated_at := now }] := by
  rw [upsertLink, h]
  simp

theorem upsertLink_present (now : ℚ) (a b : ℕ) (inc : ℚ) (links : List Link)
    (h : links.any (fun l => l.source_id == a && l.target_id == b) = true) :
    upsertLink now a b inc links =
      links.map (fun l =>
        if l.source_id == a && l.target_id == b then
          { l with strength := min 1 (l.strength + inc), updated_at := now }
        else l) := by
  rw [upsertLink, h]
  simp

theorem claim_C6_amended (now : ℚ) (a b : ℕ) (links : List Link)
    (hab : a ≠ b)
    (hnone : ∀ l ∈ links, ¬(l.source_id = a ∧ l.target_id = b) ∧
      ¬(l.source_id = b ∧ l.target_id = a)) :
    (∃ l ∈ linkMemories now a b linkDefaultStrength
        (linkMemories now a b linkDefaultStrength links),
      l.source_id = a ∧ l.target_id = b ∧ l.strength = 1) ∧
    (∃ l ∈ linkMemories now a b linkDefaultStrength
        (linkMemories now a b linkDefaultStrength links),
      l.source_id = b ∧ l.target_id = a ∧ l.strength = 1) := by
  have hba : b ≠ a := fun h => hab h.symm
  have habF : ((a == b) = false) := beq_eq_false_iff_ne.mpr hab
  have hbaF : ((b == a) = false) := beq_eq_false_iff_ne.mpr hba
  set ab : Link :=
    { source_id := a, target_id := b, strength := 1/2,
      link_type := "association", created_at := now, updated_at := now } with hab_def
  set ba : Link :=
    { source_id := b, target_id := a, strength := 1/2,
      link_type := "association", created_at := now, updated_at := now } with hba_def
  have hany1 : links.any (fun l => l.source_id == a && l.target_id == b) = false := by
    rw [List.any_eq_false]
    intro l hl
    have h := (hnone l hl).1
    simp only [Bool.and_eq_true, beq_iff_eq]
    tauto
  have hany2 : (links ++ [ab]).any (fun l => l.source_id == b && l.target_id == a) = false := by
    rw [List.any_eq_false]
    intro l hl
    rcases List.mem_append.mp hl with h | h
    · have h2 := (hnone l h).2
      simp only [Bool.and_eq_true, beq_iff_eq]
      tauto
    · simp only [List.mem_singleton] at h
      subst h
      simp [hab_def, hbaF]
  have e1 : linkMemories now a b linkDefaultStrength links = links ++ [ab] ++ [ba] := by
    rw [linkMemories, strengthenLink,
      upsertLink_absent now a b linkDefaultStrength links hany1,
      upsertLink_absent now b a linkDefaultStrength (links ++ [ab]) hany2]
  rw [e1]
  set L := links ++ [ab] ++ [ba] with hL
  have hmem_ab : ab ∈ L := by simp [hL]
  have hmem_ba : ba ∈ L := by simp [hL]
  have hany3 : L.any (fun l => l.source_id == a && l.target_id == b) = true := by
    rw [List.any_eq_true]
    exact ⟨ab, hmem_ab, by simp [hab_def]⟩
  have hfba : (if ba.source_id == a && ba.target_id == b then
      { ba with strength := min 1 (ba.strength + linkDefaultStrength), updated_at := now }
      else ba) = ba := by
    simp [hba_def, hbaF]
  have hany4 : (L.map (fun l =>
      if l.source_id == a && l.target_id == b then
        { l with strength := min 1 (l.strength + linkDefaultStrength), updated_at := now }
      else l)).any (fun l => l.source_id == b && l.target_id == a) = true := by
    rw [List.any_eq_true]
    refine ⟨ba, ?_, by simp [hba_def]⟩
    rw [← hfba]
    exact List.mem_map_of_mem _ hmem_ba
  have e3 : linkMemories now a b linkDefaultStrength L =
      (L.map (fun l =>
        if l.source_id == a && l.target_id == b then
          { l with strength := min 1 (l.strength + linkDefaultStrength), updated_at := now }
        else l)).map (fun l =>
        if l.source_id == b && l.target_id == a then
          { l with strength := min 1 (l.strength + linkDefaultStrength), updated_at := now }
        else l) := by
    rw [linkMemories, strengthenLink,
      upsertLink_present now a b linkDefaultStrength L hany3,
      upsertLink_present now b a linkDefaultStrength _ hany4]
  rw [e3]
  constructor
  · refine ⟨_, List.mem_map_of_mem _ (List.mem_map_of_mem _ hmem_ab), ?_⟩
    simp [hab_def, habF, hbaF]
    norm_num [linkDefaultStrength]
  · refine ⟨_, List.mem_map_of_mem _ (List.mem_map_of_mem _ hmem_ba), ?_⟩
    simp [hba_def, habF, hbaF]
    norm_num [linkDefaultStrength]

/-- Witness for C6 (amended): the concrete pair `(0, 1)` over an empty link
table. -/
theorem claim_C6_witness :
    (∃ l ∈ linkMemories 3 0 1 linkDefaultStrength
        (linkMemories 3 0 1 linkDefaultStrength []),
      l.source_id = 0 ∧ l.target_id = 1 ∧ l.strength = 1) ∧
    (∃ l ∈ linkMemories 3 0 1 linkDefaultStrength
        (linkMemories 3 0 1 linkDefaultStrength []),
      l.source_id = 1 ∧ l.target_id = 0 ∧ l.strength = 1) :=
  claim_C6_amended 3 0 1 [] (by decide) (by intro l hl; cases hl)

/-- `argmaxQ` returns `none` only on the empty list. -/
theorem argmaxQ_eq_none {α : Type} (key : α → ℚ) (l : List α) :
    argmaxQ key l = none ↔ l = [] := by
  cases l with
  | nil => simp [argmaxQ]
  | cons x xs =>
    simp only [argmaxQ]
    cases argmaxQ key xs with
    | none => simp
    | some y =>
      by_cases h : key x < key y
      · simp [h]
      · simp [h]

/-- Reinforcement never inserts or removes rows. -/
theorem reinforceMemory_length {E : Type} (now : ℚ) (pid : ℕ)
    (db : List (Memory E)) : (reinforceMemory now pid db).length = db.length := by
  rw [reinforceMemory]
  cases db.find? (fun m => m.id == pid) with
  | none => rfl
  | some r => simp

/-- **C2 (amended).** Storing with `skip_dedup = false` while some non-deleted
memory of the same agent has similarity above `dedup_threshold` creates no new
row and answers `action = "reinforced"` (first part); storing a memory into an
empty store and then a near-duplicate of it with default arguments at the same
instant leaves one row whose `access_count` is `1` — not `2` — and whose
stability is still `0.3` (second part). -/
theorem claim_C2_amended :
    (∀ (E : Type) (sim : E → E → ℚ) (embed : String → E) (scoreImp : String → ℚ)
      (extractTop : String → List String) (now : ℚ) (agent content : String)
      (mt : MemoryType) (imp? : Option ℚ) (top? : Option (List String))
      (ed ex sc ss : Option String) (thr : ℚ) (st : DB E),
      (∃ m ∈ st.memories, m.agent_id = agent ∧ m.is_deleted = false ∧
        thr < sim (embed content) m.embedding) →
      (storeMemory sim embed scoreImp extractTop now agent content mt imp? top?
        ed ex sc ss false thr false false st).1.action = "reinforced" ∧
      (storeMemory sim embed scoreImp extractTop now agent content mt imp? top?
        ed ex sc ss false thr false false st).2.memories.length = st.memories.length ∧
      (storeMemory sim embed scoreImp extractTop now agent content mt imp? top?
        ed ex sc ss false thr false false st).2.nextId = st.nextId) ∧
    (∀ (E : Type) (sim : E → E → ℚ) (embed : String → E) (scoreImp : String → ℚ)
      (extractTop : String → List String) (now : ℚ) (agent c1 c2 : String)
      (mt1 mt2 : MemoryType) (imp1 : Option ℚ) (top1 : Option (List String))
      (n0 : ℕ) (ls0 : List Link),
      23/25 < sim (embed c2) (embed c1) →
      (storeMemory sim embed scoreImp extractTop now agent c1 mt1 imp1 top1
        none none none none false (23/25) false false
        (DB.mk n0 [] ls0)).1.action = "created" ∧
      (storeMemory sim embed scoreImp extractTop now agent c2 mt2 none none
        none none none none false (23/25) false false
        (storeMemory sim embed scoreImp extractTop now agent c1 mt1 imp1 top1
          none none none none false (23/25) false false
          (DB.mk n0 [] ls0)).2).1.action = "reinforced" ∧
      (∀ m ∈ (storeMemory sim embed scoreImp extractTop now agent c2 mt2 none none
        none none none none false (23/25) false false
        (storeMemory sim embed scoreImp extractTop now agent c1 mt1 imp1 top1
          none none none none false (23/25) false false
          (DB.mk n0 [] ls0)).2).2.memories,
        m.access_count = 1 ∧ m.stability = 3/10) ∧
      (storeMemory sim embed scoreImp extractTop now agent c2 mt2 none none
        none none none none false (23/25) false false
        (storeMemory sim embed scoreImp extractTop now agent c1 mt1 imp1 top1
          none none none none false (23/25) false false
          (DB.mk n0 [] ls0)).2).2.memories.length = 1) := by
  constructor
  · intro E sim embed scoreImp extractTop now agent content mt imp? top? ed ex sc ss thr st h
    obtain ⟨mh, hmem, ha, hd, hsim⟩ := h
    have hfil : mh ∈ st.memories.filter (fun m =>
        m.agent_id == agent && !m.is_deleted &&
        decide (thr < sim (embed content) m.embedding)) := by
      rw [List.mem_filter]
      exact ⟨hmem, by simp [ha, hd, hsim]⟩
    have hne : st.memories.filter (fun m =>
        m.agent_id == agent && !m.is_deleted &&
        decide (thr < sim (embed content) m.embedding)) ≠ [] :=
      List.ne_nil_of_mem hfil
    obtain ⟨v, hv⟩ : ∃ v, argmaxQ (fun m => sim (embed content) m.embedding)
        (st.memories.filter (fun m =>
          m.agent_id == agent && !m.is_deleted &&
          decide (thr < sim (embed content) m.embedding))) = some v := by
      cases hc : argmaxQ (fun m => sim (embed content) m.embedding)
          (st.memories.filter (fun m =>
            m.agent_id == agent && !m.is_deleted &&
            decide (thr < sim (embed content) m.embedding))) with
      | none => exact absurd ((argmaxQ_eq_none _ _).mp hc) hne
      | some v => exact ⟨v, rfl⟩
    rw [storeMemory]
    simp only [Bool.false_eq_true, if_false, hv]
    refine ⟨trivial, reinforceMemory_length now v.id st.memories, trivial⟩
  · intro E sim embed scoreImp extractTop now agent c1 c2 mt1 mt2 imp1 top1 n0 ls0 hsim
    have e1 : storeMemory sim embed scoreImp extractTop now agent c1 mt1 imp1 top1
        none none none none false (23/25) false false (DB.mk n0 [] ls0) =
        ({ action := "created", id := n0, similarity := none },
         DB.mk (n0 + 1)
           [newMemoryRow n0 agent c1 (embed c1) mt1 (top1.getD []) now
             none none (imp1.getD (1/2)) none none]
           ls0) := by
      rw [storeMemory]
      rfl
    rw [e1]
    set row0 : Memory E :=
      newMemoryRow n0 agent c1 (embed c1) mt1 (top1.getD []) now
        none none (imp1.getD (1/2)) none none with hrow0
    have hfil : List.filter (fun m =>
        m.agent_id == agent && !m.is_deleted &&
        decide (23/25 < sim (embed c2) m.embedding)) [row0] = [row0] := by
      rw [List.filter_cons]
      have : (row0.agent_id == agent && !row0.is_deleted &&
          decide ((23:ℚ)/25 < sim (embed c2) row0.embedding)) = true := by
        simp [hrow0, newMemoryRow, hsim]
      rw [this]
      simp
    have e2 : storeMemory sim embed scoreImp extractTop now agent c2 mt2 none none
        none none none none false (23/25) false false
        (DB.mk (n0 + 1) [row0] ls0) =
        ({ action := "reinforced", id := row0.id,
           similarity := some (sim (embed c2) row0.embedding) },
         DB.mk (n0 + 1) (reinforceMemory now row0.id [row0]) ls0) := by
      rw [storeMemory]
      simp only [Bool.false_eq_true, if_false, hfil]
      rfl
    rw [e2]
    have e3 : reinforceMemory now row0.id [row0] =
        [{ row0 with
            last_accessed := now,
            access_count := row0.access_count + 1,
            stability := min 1 (row0.stability +
              (1/10) * min 2 (((now - row0.last_accessed) / 86400) / 7)) }] :=
      reinforce_single now row0
    have hstab : min (1:ℚ) (row0.stability +
        (1/10) * min 2 (((now - row0.last_accessed) / 86400) / 7)) = 3/10 := by
      rw [hrow0]
      simp only [newMemoryRow]
      norm_num
    refine ⟨rfl, rfl, ?_, ?_⟩
    · intro m hm
      rw [e3] at hm
      simp only [List.mem_singleton] at hm
      subst hm
      exact ⟨rfl, hstab⟩
    · rw [e3]
      rfl

/-- A concrete similarity port: embeddings are rationals, similarity is one
minus their distance. -/
def simC (a b : ℚ) : ℚ := 1 - |a - b|

/-- A concrete embedding port mapping the near-duplicate contents of the
spec's dedup scenario to nearby points. -/
def embedC (s : String) : ℚ := if s = "user prefers dark mode" then 0 else 1/100

/-- A concrete importance-scoring port (never consulted in the scenarios). -/
def constScore : String → ℚ := fun _ => 1/2

/-- A concrete topic-extraction port (never consulted in the scenarios). -/
def constTopics : String → List String := fun _ => []

/-- The dedup scenario of the spec: store `"user prefers dark mode"` and then
the near-duplicate `"user prefers dark mode."` with defaults, both at time 0
under agent `"main"`. -/
def dedupDemo : StoreResult × DB ℚ :=
  storeMemory simC embedC constScore constTopics 0 "main"
    "user prefers dark mode." MemoryType.episodic none none none none none none
    false (23/25) false false
    (storeMemory simC embedC constScore constTopics 0 "main"
      "user prefers dark mode" MemoryType.episodic (some (1/2)) (some ["ui"])
      none none none none false (23/25) false false (DB.mk 0 [] [])).2

/-- **C2 (counterexample).** In the dedup scenario the second store is
answered `reinforced` and the single surviving row has `access_count = 1`,
not `2` as the claim states: the INSERT leaves `access_count` at its column
default 0 and the one reinforcement adds exactly 1. -/
theorem claim_C2_counterexample :
    dedupDemo.1.action = "reinforced" ∧
    dedupDemo.2.memories.map Memory.access_count = [1] ∧ (1 : ℕ) ≠ 2 := by
  have hemb1 : embedC "user prefers dark mode" = 0 := by
    rw [embedC, if_pos rfl]
  have hemb2 : embedC "user prefers dark mode." = 1/100 := by
    rw [embedC, if_neg (by decide)]
  have hsim : (23:ℚ)/25 < simC (embedC "user prefers dark mode.") (embedC "user prefers dark mode") := by
    rw [hemb1, hemb2, simC]
    rw [abs_of_nonneg (by norm_num)]
    norm_num
  set row0 : Memory ℚ :=
    newMemoryRow 0 "main" "user prefers dark mode"
      (embedC "user prefers dark mode") MemoryType.episodic ["ui"] 0
      none none (1/2) none none with hrow0
  have e1 : (storeMemory simC embedC constScore constTopics 0 "main"
      "user prefers dark mode" MemoryType.episodic (some (1/2)) (some ["ui"])
      none none none none false (23/25) false false (DB.mk 0 [] [])).2 =
      DB.mk 1 [row0] [] := by
    rw [storeMemory]
    rfl
  have hfil : List.filter (fun m =>
      m.agent_id == "main" && !m.is_deleted &&
      decide ((23:ℚ)/25 < simC (embedC "user prefers dark mode.") m.embedding)) [row0] =
      [row0] := by
    rw [List.filter_cons]
    have : (row0.agent_id == "main" && !row0.is_deleted &&
        decide ((23:ℚ)/25 < simC (embedC "user prefers dark mode.") row0.embedding)) = true := by
      simp [hrow0, newMemoryRow, hsim]
    rw [this]
    simp
  have e2 : dedupDemo =
      ({ action := "reinforced", id := row0.id,
         similarity := some (simC (embedC "user prefers dark mode.") row0.embedding) },
       DB.mk 1 (reinforceMemory 0 row0.id [row0]) []) := by
    rw [dedupDemo, e1, storeMemory]
    simp only [Bool.false_eq_true, if_false, hfil]
    rfl
  rw [e2]
  refine ⟨rfl, ?_, by norm_num⟩
  rw [reinforce_single 0 row0]
  simp [hrow0, newMemoryRow]

/-- Witness for C2 (amended): both parts applied to the concrete dedup
scenario ports. -/
theorem claim_C2_witness :
    ((storeMemory simC embedC constScore constTopics 0 "main"
        "user prefers dark mode." MemoryType.episodic none none none none none none
        false (23/25) false false
        (DB.mk 1 [newMemoryRow 0 "main" "user prefers dark mode"
          (embedC "user prefers dark mode") MemoryType.episodic ["ui"] 0
          none none (1/2) none none] [])).1.action = "reinforced") ∧
    ((storeMemory simC embedC constScore constTopics 0 "main"
        "user prefers dark mode" MemoryType.episodic (some (1/2)) (some ["ui"])
        none none none none false (23/25) false false
        (DB.mk 0 [] [])).1.action = "created") := by
  constructor
  · refine (claim_C2_amended.1 ℚ simC embedC constScore constTopics 0 "main"
      "user prefers dark mode." MemoryType.episodic none none none none none none
      (23/25) (DB.mk 1 [newMemoryRow 0 "main" "user prefers dark mode"
        (embedC "user prefers dark mode") MemoryType.episodic ["ui"] 0
        none none (1/2) none none] []) ?_).1
    refine ⟨newMemoryRow 0 "main" "user prefers dark mode"
      (embedC "user prefers dark mode") MemoryType.episodic ["ui"] 0
      none none (1/2) none none, by simp, rfl, rfl, ?_⟩
    have hemb1 : embedC "user prefers dark mode" = 0 := by
      rw [embedC, if_pos rfl]
    have hemb2 : embedC "user prefers dark mode." = 1/100 := by
      rw [embedC, if_neg (by decide)]
    show (23:ℚ)/25 < simC (embedC "user prefers dark mode.")
      (newMemoryRow 0 "main" "user prefers dark mode"
        (embedC "user prefers dark mode") MemoryType.episodic ["ui"] (0:ℚ)
        none none (1/2) none none).embedding
    rw [show (newMemoryRow 0 "main" "user prefers dark mode"
        (embedC "user prefers dark mode") MemoryType.episodic ["ui"] (0:ℚ)
        none none (1/2) none none).embedding = embedC "user prefers dark mode" from rfl]
    rw [hemb1, hemb2, simC, abs_of_nonneg (by norm_num)]
    norm_num
  · exact (claim_C2_amended.2 ℚ simC embedC constScore constTopics 0 "main"
      "user prefers dark mode" "user prefers dark mode." MemoryType.episodic
      MemoryType.episodic (some (1/2)) (some ["ui"]) 0 []
      (by
        have hemb1 : embedC "user prefers dark mode" = 0 := by
          rw [embedC, if_pos rfl]
        have hemb2 : embedC "user prefers dark mode." = 1/100 := by
          rw [embedC, if_neg (by decide)]
        rw [hemb1, hemb2, simC, abs_of_nonneg (by norm_num)]
        norm_num)).1

/-- A primary row of the retrieval SELECT: the memory columns together with
the computed `similarity` and `retention` columns. -/
structure PrimaryRow (E : Type) where
  mem : Memory E
  similarity : ℚ
  retention : ℝ

/-- An association row of the retrieval SELECT: the joined memory together
with the link strength and its computed retention. -/
structure AssocRow (E : Type) where
  mem : Memory E
  link_strength : ℚ
  retention : ℝ

/-- The JSON envelope of `retrieve_memories`. -/
structure RetrieveResult (E : Type) where
  memories : List (PrimaryRow E)
  associations : List (AssocRow E)

/-- `ORDER BY similarity * retention DESC` of the primary SELECT. -/
noncomputable def primaryKey {E : Type} (r : PrimaryRow E) : ℝ :=
  (r.similarity : ℝ) * r.retention

/-- Row order realising the primary ORDER BY (descending key). -/
def primaryOrder {E : Type} : PrimaryRow E → PrimaryRow E → Prop :=
  fun a b => primaryKey b ≤ primaryKey a

open Classical in
noncomputable instance {E : Type} : DecidableRel (@primaryOrder E) :=
  fun _ _ => Classical.propDecidable _

instance {E : Type} : IsTotal (PrimaryRow E) primaryOrder :=
  ⟨fun a b => le_total (primaryKey b) (primaryKey a)⟩

instance {E : Type} : IsTrans (PrimaryRow E) primaryOrder :=
  ⟨fun _ _ _ hab hbc => le_trans hbc hab⟩

/-- `ORDER BY m.id, l.strength DESC` of the association SELECT (the order
DISTINCT ON uses to pick the strongest link per memory). -/
def assocPairOrder {E : Type} : Memory E × Link → Memory E × Link → Prop :=
  fun a b => a.1.id < b.1.id ∨ (a.1.id = b.1.id ∧ b.2.strength ≤ a.2.strength)

instance {E : Type} : DecidableRel (@assocPairOrder E) :=
  fun a b => by unfold assocPairOrder; infer_instance

instance {E : Type} : IsTotal (Memory E × Link) assocPairOrder := by
  constructor
  intro a b
  rcases lt_trichotomy a.1.id b.1.id with h | h | h
  · exact Or.inl (Or.inl h)
  · rcases le_total b.2.strength a.2.strength with hs | hs
    · exact Or.inl (Or.inr ⟨h, hs⟩)
    · exact Or.inr (Or.inr ⟨h.symm, hs⟩)
  · exact Or.inr (Or.inl h)

instance {E : Type} : IsTrans (Memory E × Link) assocPairOrder := by
  constructor
  intro a b c hab hbc
  rcases hab with h1 | ⟨h1, s1⟩
  · rcases hbc with h2 | ⟨h2, s2⟩
    · exact Or.inl (lt_trans h1 h2)
    · exact Or.inl (h2 ▸ h1)
  · rcases hbc with h2 | ⟨h2, s2⟩
    · exact Or.inl (h1 ▸ h2)
    · exact Or.inr ⟨h1.trans h2, le_trans s2 s1⟩

/-- Auxiliary loop of `DISTINCT ON`: keep the first row for each key, with
the keys already taken recorded in `seen`. -/
def dedupOnAux {β κ : Type} [DecidableEq κ] (key : β → κ) :
    List κ → List β → List β
  | _, [] => []
  | seen, x :: xs =>
    if key x ∈ seen then dedupOnAux key seen xs
    else x :: dedupOnAux key (key x :: seen) xs

/-- `DISTINCT ON (key)` over an already sorted list: the first row of each
key group survives. -/
def dedupOn {β κ : Type} [DecidableEq κ] (key : β → κ) (l : List β) : List β :=
  dedupOnAux key [] l

theorem dedupOnAux_sublist {β κ : Type} [DecidableEq κ] (key : β → κ) :
    ∀ (l : List β) (seen : List κ), List.Sublist (dedupOnAux key seen l) l := by
  intro l
  induction l with
  | nil => intro seen; simp [dedupOnAux]
  | cons x xs ih =>
    intro seen
    rw [dedupOnAux]
    by_cases h : key x ∈ seen
    · rw [if_pos h]
      exact (ih seen).cons x
    · rw [if_neg h]
      exact (ih (key x :: seen)).cons₂ x

theorem dedupOn_sublist {β κ : Type} [DecidableEq κ] (key : β → κ) (l : List β) :
    List.Sublist (dedupOn key l) l :=
  dedupOnAux_sublist key l []

open Classical in
/-- The primary SELECT of `retrieve_memories` (memory-utils.py lines
178-201): rows of the agent that are not deleted, whose server-computed
retention exceeds `min_retention`, matching the optional type filter,
ordered by `similarity * retention` descending, limited to `limit`.  With
`v` the query embedding, `similarity = sim v embedding`. -/
noncomputable def primarySelect {E : Type} (sim : E → E → ℚ) (v : E) (now : ℚ)
    (agent : String) (limit : ℕ) (min_retention : ℚ)
    (memory_types : List MemoryType) (mems : List (Memory E)) :
    List (PrimaryRow E) :=
  (List.insertionSort primaryOrder
    ((mems.filter (fun m =>
        m.agent_id == agent && !m.is_deleted &&
        decide ((min_retention : ℝ) < retentionOf now m) &&
        (memory_types.isEmpty || memory_types.contains m.memory_type))).map
      (fun m => PrimaryRow.mk m (sim v m.embedding) (retentionOf now m)))).take limit

/-- The JOIN of the association SELECT (memory-utils.py lines 212-225):
pairs `(m, l)` with `m.id = l.target_id`, `l.source_id` among the retrieved
ids, `m.id` not among them, `m` not deleted and `l.strength > 0.3`. -/
def assocJoin {E : Type} (links : List Link) (pids : List ℕ)
    (mems : List (Memory E)) : List (Memory E × Link) :=
  mems.flatMap (fun m => links.filterMap (fun l =>
    if l.target_id == m.id && pids.contains l.source_id &&
        !pids.contains m.id && !m.is_deleted && decide ((3:ℚ)/10 < l.strength)
    then some (m, l) else none))

/-- `DISTINCT ON (m.id) ... ORDER BY m.id, l.strength DESC LIMIT limit`. -/
def assocSelect {E : Type} (limit : ℕ) (pairs : List (Memory E × Link)) :
    List (Memory E × Link) :=
  (dedupOn (fun p => p.1.id) (List.insertionSort assocPairOrder pairs)).take limit

/-- `retrieve_memories` (memory-utils.py lines 155-255): primary SELECT,
reinforcement of the primaries, association SELECT against the reinforced
store, reinforcement of the associations.  Returns the envelope and the
final store. -/
noncomputable def retrieveMemories {E : Type} (sim : E → E → ℚ)
    (embed : String → E) (now : ℚ) (agent query : String) (limit : ℕ)
    (include_associations : Bool) (min_retention : ℚ)
    (memory_types : List MemoryType) (st : DB E) : RetrieveResult E × DB E :=
  let v := embed query
  let primary := primarySelect sim v now agent limit min_retention memory_types st.memories
  let pids := primary.map (fun r => r.mem.id)
  let db1 := pids.foldl (fun d i => reinforceMemory now i d) st.memories
  let assocPairs :=
    if include_associations && !pids.isEmpty then
      assocSelect limit (assocJoin st.links pids db1)
    else []
  let associations := assocPairs.map (fun p => AssocRow.mk p.1 p.2.strength (retentionOf now p.1))
  let db2 := (assocPairs.map (fun p => p.1.id)).foldl (fun d i => reinforceMemory now i d) db1
  (RetrieveResult.mk primary associations, DB.mk st.nextId db2 st.links)

theorem retrieveMemories_fst_memories {E : Type} (sim : E → E → ℚ)
    (embed : String → E) (now : ℚ) (agent query : String) (limit : ℕ)
    (incA : Bool) (min_ret : ℚ) (types : List MemoryType) (st : DB E) :
    (retrieveMemories sim embed now agent query limit incA min_ret types st).1.memories =
      primarySelect sim (embed query) now agent limit min_ret types st.memories := rfl

theorem retrieveMemories_fst_associations {E : Type} (sim : E → E → ℚ)
    (embed : String → E) (now : ℚ) (agent query : String) (limit : ℕ)
    (incA : Bool) (min_ret : ℚ) (types : List MemoryType) (st : DB E) :
    (retrieveMemories sim embed now agent query limit incA min_ret types st).1.associations =
      (if incA && !((primarySelect sim (embed query) now agent limit min_ret types
            st.memories).map (fun r => r.mem.id)).isEmpty then
        assocSelect limit (assocJoin st.links
          ((primarySelect sim (embed query) now agent limit min_ret types
            st.memories).map (fun r => r.mem.id))
          (((primarySelect sim (embed query) now agent limit min_ret types
            st.memories).map (fun r => r.mem.id)).foldl
              (fun d i => reinforceMemory now i d) st.memories))
      else []).map (fun p => AssocRow.mk p.1 p.2.strength (retentionOf now p.1)) := rfl

/-- **C4 (amended).** The primary results are returned in descending order of
`similarity * retention` (ties in storage order: the SQL has no further sort
key), and the association results are returned in ascending order of memory
id — the DISTINCT ON sort — carrying the strongest qualifying link per id,
not in descending link-strength order. -/
theorem claim_C4_amended (E : Type) (sim : E → E → ℚ) (embed : String → E)
    (now : ℚ) (agent query : String) (limit : ℕ) (incA : Bool) (min_ret : ℚ)
    (types : List MemoryType) (st : DB E) :
    List.Sorted primaryOrder
      (retrieveMemories sim embed now agent query limit incA min_ret types st).1.memories ∧
    List.Sorted (fun a b : AssocRow E => a.mem.id ≤ b.mem.id)
      (retrieveMemories sim embed now agent query limit incA min_ret types st).1.associations := by
  constructor
  · rw [retrieveMemories_fst_memories, primarySelect]
    exact List.Pairwise.sublist (List.take_sublist _ _)
      (List.sorted_insertionSort primaryOrder _)
  · rw [retrieveMemories_fst_associations]
    by_cases hc : (incA && !((primarySelect sim (embed query) now agent limit min_ret types
        st.memories).map (fun r => r.mem.id)).isEmpty) = true
    · rw [if_pos hc]
      show List.Pairwise (fun a b : AssocRow E => a.mem.id ≤ b.mem.id) _
      refine List.Pairwise.map _ (fun p q (h : assocPairOrder p q) => ?_) ?_
      · rcases h with h | ⟨h, _⟩
        · exact le_of_lt h
        · exact le_of_eq h
      · rw [assocSelect]
        exact List.Pairwise.sublist
          ((List.take_sublist _ _).trans (dedupOn_sublist _ _))
          (List.sorted_insertionSort assocPairOrder _)
    · rw [if_neg hc]
      simp

/-- **C3 (amended).** Every primary memory returned by `retrieve_memories`
is not deleted and its reported retention — its retention at query time —
strictly exceeds `min_retention`; every association memory returned is not
deleted, but the association SELECT applies no retention filter. -/
theorem claim_C3_amended (E : Type) (sim : E → E → ℚ) (embed : String → E)
    (now : ℚ) (agent query : String) (limit : ℕ) (incA : Bool) (min_ret : ℚ)
    (types : List MemoryType) (st : DB E) :
    (∀ r ∈ (retrieveMemories sim embed now agent query limit incA min_ret types st).1.memories,
      r.mem.is_deleted = false ∧ (min_ret : ℝ) < r.retention ∧
      r.retention = retentionOf now r.mem) ∧
    (∀ a ∈ (retrieveMemories sim embed now agent query limit incA min_ret types st).1.associations,
      a.mem.is_deleted = false) := by
  constructor
  · intro r hr
    rw [retrieveMemories_fst_memories, primarySelect] at hr
    have hr2 := (List.take_sublist _ _).subset hr
    rw [List.mem_insertionSort] at hr2
    rcases List.mem_map.mp hr2 with ⟨m, hmf, rfl⟩
    rcases List.mem_filter.mp hmf with ⟨_, hpred⟩
    simp only [Bool.and_eq_true, decide_eq_true_eq, Bool.not_eq_true'] at hpred
    exact ⟨hpred.1.1.2, hpred.1.2, rfl⟩
  · intro a ha
    rw [retrieveMemories_fst_associations] at ha
    rcases List.mem_map.mp ha with ⟨p, hp, rfl⟩
    by_cases hc : (incA && !((primarySelect sim (embed query) now agent limit min_ret types
        st.memories).map (fun r => r.mem.id)).isEmpty) = true
    · rw [if_pos hc, assocSelect] at hp
      have hp2 := ((List.take_sublist _ _).trans (dedupOn_sublist _ _)).subset hp
      rw [List.mem_insertionSort] at hp2
      rcases List.mem_flatMap.mp hp2 with ⟨m, _, hpf⟩
      rcases List.mem_filterMap.mp hpf with ⟨l, _, hsome⟩
      by_cases hcond : (l.target_id == m.id &&
          ((primarySelect sim (embed query) now agent limit min_ret types
            st.memories).map (fun r => r.mem.id)).contains l.source_id &&
          !((primarySelect sim (embed query) now agent limit min_ret types
            st.memories).map (fun r => r.mem.id)).contains m.id &&
          !m.is_deleted && decide ((3:ℚ)/10 < l.strength)) = true
      · rw [if_pos hcond] at hsome
        injection hsome with hsome
        subst hsome
        simp only [Bool.and_eq_true, Bool.not_eq_true'] at hcond
        exact hcond.1.2
      · rw [if_neg hcond] at hsome
        cases hsome
    · rw [if_neg hc] at hp
      cases hp

/-- A memory whose last access is the query instant has retention 1. -/
theorem retentionOf_now {E : Type} (now : ℚ) (m : Memory E)
    (h : m.last_accessed = now) : retentionOf now m = 1 := by
  rw [retentionOf, calculate_retention, h]
  rw [show ((now:ℝ) - (now:ℝ)) = 0 from by ring]
  rw [zero_div, neg_zero, zero_div, Real.exp_zero]
  norm_num

theorem exp_neg_five_lt_fifth : Real.exp (-5) < 1/5 := by
  rw [Real.exp_neg]
  have h6 : (6:ℝ) ≤ Real.exp 5 := by
    have := Real.add_one_le_exp (5:ℝ)
    linarith
  have hpos : (0:ℝ) < 6 := by norm_num
  have : (Real.exp 5)⁻¹ ≤ 6⁻¹ := by
    apply inv_anti₀ hpos h6
  have h16 : (6:ℝ)⁻¹ < 1/5 := by norm_num
  linarith

/-- Constant-similarity port for the retrieval scenario. -/
def simOne : ℚ → ℚ → ℚ := fun _ _ => 1

/-- Constant-embedding port for the retrieval scenario. -/
def embedZero : String → ℚ := fun _ => 0

/-- Retrieval scenario, primary hit: agent `main`, last accessed at the
query instant (retention 1). -/
def m1C : Memory ℚ :=
  newMemoryRow 1 "main" "m1" 0 MemoryType.episodic [] 7776000 none none (1/2) none none

/-- Retrieval scenario, association target of strength 0.4: another agent,
last accessed 90 days before the query (retention `exp (-5)`). -/
def m2C : Memory ℚ :=
  newMemoryRow 2 "other" "m2" 0 MemoryType.episodic [] 0 none none (1/2) none none

/-- Retrieval scenario, association target of strength 0.9, like `m2C`. -/
def m3C : Memory ℚ :=
  newMemoryRow 3 "other" "m3" 0 MemoryType.episodic [] 0 none none (1/2) none none

/-- Link `1 -> 2` of strength 0.4. -/
def l12C : Link :=
  { source_id := 1, target_id := 2, strength := 2/5,
    link_type := "association", created_at := 0, updated_at := 0 }

/-- Link `1 -> 3` of strength 0.9. -/
def l13C : Link :=
  { source_id := 1, target_id := 3, strength := 9/10,
    link_type := "association", created_at := 0, updated_at := 0 }

/-- The store of the retrieval scenario. -/
def dbC : DB ℚ := DB.mk 4 [m1C, m2C, m3C] [l12C, l13C]

/-- The retrieval scenario call: query at time 7776000 (90 days), agent
`main`, `limit = 5`, associations on, `min_retention = 1/5`, no type
filter. -/
noncomputable def retrieveC : RetrieveResult ℚ × DB ℚ :=
  retrieveMemories simOne embedZero 7776000 "main" "query" 5 true (1/5) [] dbC

theorem retention_m2C : retentionOf 7776000 m2C = Real.exp (-5) := by
  rw [m2C, newMemoryRow, retentionOf, calculate_retention]
  push_cast
  rw [if_neg (by norm_num)]
  rw [show -(((7776000:ℝ) - 0) / 86400) / ((3:ℝ)/10 * (1 + 1/2 * 2) * 30) = -5 by norm_num]
  rw [min_eq_right (by rw [Real.exp_le_one_iff]; norm_num)]
  rw [max_eq_right (Real.exp_nonneg _)]

theorem retention_m3C : retentionOf 7776000 m3C = Real.exp (-5) := by
  rw [m3C, newMemoryRow, retentionOf, calculate_retention]
  push_cast
  rw [if_neg (by norm_num)]
  rw [show -(((7776000:ℝ) - 0) / 86400) / ((3:ℝ)/10 * (1 + 1/2 * 2) * 30) = -5 by norm_num]
  rw [min_eq_right (by rw [Real.exp_le_one_iff]; norm_num)]
  rw [max_eq_right (Real.exp_nonneg _)]

theorem primarySelectC_eval :
    primarySelect simOne (0:ℚ) 7776000 "main" 5 (1/5) [] [m1C, m2C, m3C] =
      [PrimaryRow.mk m1C 1 (retentionOf 7776000 m1C)] := by
  have hret1 : retentionOf 7776000 m1C = 1 :=
    retentionOf_now _ _ (by simp [m1C, newMemoryRow])
  have hlt : ((((1:ℚ)/5 : ℚ) : ℝ) < retentionOf 7776000 m1C) := by
    rw [hret1]
    push_cast
    norm_num
  have hm1 : (m1C.agent_id == "main" && !m1C.is_deleted &&
      decide ((((1:ℚ)/5 : ℚ) : ℝ) < retentionOf 7776000 m1C) &&
      (([] : List MemoryType).isEmpty || ([] : List MemoryType).contains m1C.memory_type)) = true := by
    have h1 : (m1C.agent_id == "main") = true := by simp [m1C, newMemoryRow]
    have h2 : (!m1C.is_deleted) = true := by simp [m1C, newMemoryRow]
    have h3 : decide ((((1:ℚ)/5 : ℚ) : ℝ) < retentionOf 7776000 m1C) = true :=
      decide_eq_true hlt
    rw [h1, h2, h3]
    simp
  have hm2 : (m2C.agent_id == "main" && !m2C.is_deleted &&
      decide ((((1:ℚ)/5 : ℚ) : ℝ) < retentionOf 7776000 m2C) &&
      (([] : List MemoryType).isEmpty || ([] : List MemoryType).contains m2C.memory_type)) = false := by
    have : (m2C.agent_id == "main") = false := by
      simp [m2C, newMemoryRow]
    rw [this]
    simp
  have hm3 : (m3C.agent_id == "main" && !m3C.is_deleted &&
      decide ((((1:ℚ)/5 : ℚ) : ℝ) < retentionOf 7776000 m3C) &&
      (([] : List MemoryType).isEmpty || ([] : List MemoryType).contains m3C.memory_type)) = false := by
    have : (m3C.agent_id == "main") = false := by
      simp [m3C, newMemoryRow]
    rw [this]
    simp
  rw [primarySelect]
  simp only [List.filter_cons, List.filter_nil]
  rw [hm1, hm2, hm3]
  simp only [if_true, Bool.false_eq_true, if_false]
  simp [List.insertionSort, List.orderedInsert, simOne]

theorem retrieveC_memories :
    retrieveC.1.memories = [PrimaryRow.mk m1C 1 (retentionOf 7776000 m1C)] := by
  rw [retrieveC, retrieveMemories_fst_memories]
  rw [show dbC.memories = [m1C, m2C, m3C] from rfl]
  rw [show embedZero "query" = (0:ℚ) from rfl]
  exact primarySelectC_eval

theorem retrieveC_assoc :
    retrieveC.1.associations =
      [AssocRow.mk m2C (2/5) (retentionOf 7776000 m2C),
       AssocRow.mk m3C (9/10) (retentionOf 7776000 m3C)] := by
  have hdb1 : reinforceMemory (7776000:ℚ) 1 [m1C, m2C, m3C] =
      [{ m1C with
          last_accessed := 7776000,
          access_count := m1C.access_count + 1,
          stability := min 1 (m1C.stability +
            (1/10) * min 2 ((((7776000:ℚ) - m1C.last_accessed) / 86400) / 7)) },
       m2C, m3C] := rfl
  have hp1 : ((3:ℚ)/10 < 2/5) := by norm_num
  have hp2 : ((3:ℚ)/10 < 9/10) := by norm_num
  have hjoin : assocJoin [l12C, l13C] [1]
      [{ m1C with
          last_accessed := 7776000,
          access_count := m1C.access_count + 1,
          stability := min 1 (m1C.stability +
            (1/10) * min 2 ((((7776000:ℚ) - m1C.last_accessed) / 86400) / 7)) },
       m2C, m3C] = [(m2C, l12C), (m3C, l13C)] := by
    simp [assocJoin, m1C, m2C, m3C, l12C, l13C, newMemoryRow, hp1, hp2,
      List.filterMap_cons]
  have hord : assocPairOrder (m2C, l12C) (m3C, l13C) := by
    left
    show m2C.id < m3C.id
    simp [m2C, m3C, newMemoryRow]
  have hsorted : List.insertionSort assocPairOrder [(m2C, l12C), (m3C, l13C)] =
      [(m2C, l12C), (m3C, l13C)] := by
    simp only [List.insertionSort, List.orderedInsert]
    rw [if_pos hord]
  have hkey : ((m3C, l13C).1.id ∈ [(m2C, l12C).1.id]) = False := by
    simp [m2C, m3C, newMemoryRow]
  have hdedup : dedupOn (fun p : Memory ℚ × Link => p.1.id)
      [(m2C, l12C), (m3C, l13C)] = [(m2C, l12C), (m3C, l13C)] := by
    rw [dedupOn, dedupOnAux, if_neg (List.not_mem_nil _), dedupOnAux,
      if_neg (by rw [hkey]; exact id), dedupOnAux]
  rw [retrieveC, retrieveMemories_fst_associations]
  rw [show dbC.memories = [m1C, m2C, m3C] from rfl]
  rw [show dbC.links = [l12C, l13C] from rfl]
  rw [show embedZero "query" = (0:ℚ) from rfl]
  rw [primarySelectC_eval]
  rw [show ([PrimaryRow.mk m1C 1 (retentionOf 7776000 m1C)].map
    (fun r => r.mem.id)) = [1] from rfl]
  rw [if_pos (show (true && !(([(1:ℕ)]).isEmpty)) = true from rfl)]
  rw [show ([(1:ℕ)].foldl (fun d i => reinforceMemory (7776000:ℚ) i d)
    [m1C, m2C, m3C]) = reinforceMemory 7776000 1 [m1C, m2C, m3C] from rfl]
  rw [hdb1, hjoin, assocSelect, hsorted, hdedup]
  rfl

/-- **C4 (counterexample).** In the retrieval scenario the returned
associations carry link strengths `[0.4, 0.9]` in that order — the SQL
`DISTINCT ON (m.id) ... ORDER BY m.id` returns them by memory id — which is
not a descending link-strength order. -/
theorem claim_C4_counterexample :
    retrieveC.1.associations.map AssocRow.link_strength = [2/5, 9/10] ∧
    ¬ List.Sorted (fun a b : ℚ => b ≤ a) [2/5, 9/10] := by
  constructor
  · rw [retrieveC_assoc]
    rfl
  · intro h
    rcases List.pairwise_cons.mp h with ⟨h1, _⟩
    have := h1 (9/10) (List.mem_singleton.mpr rfl)
    norm_num at this

/-- **C3 (counterexample).** The retrieval scenario is called with
`min_retention = 1/5`, yet both returned association memories have retention
`exp (-5) < 1/5` at query time: the association SELECT never filters by
retention. -/
theorem claim_C3_counterexample :
    retrieveC.1.associations.map AssocRow.retention = [Real.exp (-5), Real.exp (-5)] ∧
    Real.exp (-5) < (((1:ℚ)/5 : ℚ) : ℝ) := by
  constructor
  · rw [retrieveC_assoc]
    simp [retention_m2C, retention_m3C]
  · have := exp_neg_five_lt_fifth
    push_cast
    linarith

/-- Witness for C3 (amended): the primary row and the first association row
of the retrieval scenario. -/
theorem claim_C3_witness :
    ((PrimaryRow.mk m1C 1 (retentionOf 7776000 m1C)).mem.is_deleted = false ∧
      (((1:ℚ)/5 : ℚ) : ℝ) < (PrimaryRow.mk m1C 1 (retentionOf 7776000 m1C)).retention ∧
      (PrimaryRow.mk m1C 1 (retentionOf 7776000 m1C)).retention =
        retentionOf 7776000 (PrimaryRow.mk m1C 1 (retentionOf 7776000 m1C)).mem) ∧
    (AssocRow.mk m2C (2/5) (retentionOf 7776000 m2C)).mem.is_deleted = false := by
  constructor
  · exact (claim_C3_amended ℚ simOne embedZero 7776000 "main" "query" 5 true (1/5) [] dbC).1
      (PrimaryRow.mk m1C 1 (retentionOf 7776000 m1C))
      (by rw [show (retrieveMemories simOne embedZero 7776000 "main" "query" 5 true
          (1/5) [] dbC).1.memories = retrieveC.1.memories from rfl, retrieveC_memories]
          exact List.mem_singleton.mpr rfl)
  · exact (claim_C3_amended ℚ simOne embedZero 7776000 "main" "query" 5 true (1/5) [] dbC).2
      (AssocRow.mk m2C (2/5) (retentionOf 7776000 m2C))
      (by rw [show (retrieveMemories simOne embedZero 7776000 "main" "query" 5 true
          (1/5) [] dbC).1.associations = retrieveC.1.associations from rfl, retrieveC_assoc]
          exact List.mem_cons_self _ _)

/-- A `compressed` entry of the consolidation report. -/
structure CompressedEntry where
  topic : String
  count : ℕ
  summary_id : ℕ
  original_ids : List ℕ

/-- The consolidation report (`results` dict of `consolidate_memories`);
`links_created` is initialised to 0 and never updated by the code. -/
structure ConsolidateReport (E : Type) where
  decayed : List (ℕ × String × ℝ)
  compressed : List CompressedEntry
  promotion_candidates : List (Memory E)
  links_created : ℕ

open Classical in
/-- Step 1 of `consolidate_memories` (lines 348-359): non-deleted,
non-summary rows of the agent with retention below 0.2.  The SELECT has no
ORDER BY; rows come back in storage order. -/
noncomputable def fadingScan {E : Type} (agent : String) (now : ℚ)
    (mems : List (Memory E)) : List (Memory E) :=
  mems.filter (fun m => m.agent_id == agent && !m.is_deleted && !m.is_summary &&
    decide (retentionOf now m < 1/5))

/-- The iteration order of the Python dict `topic_groups`: first encounter of
each topic while walking the fading rows (dict preserves insertion order). -/
def firstEncounterTopics {E : Type} (fading : List (Memory E)) : List String :=
  dedupOn (fun t => t) (fading.flatMap Memory.topics)

/-- `UPDATE memories SET is_summary = TRUE WHERE id = ANY(ids)`. -/
def markSummarized {E : Type} (ids : List ℕ) (mems : List (Memory E)) :
    List (Memory E) :=
  mems.map (fun m => if ids.contains m.id then { m with is_summary := true } else m)

/-- Step 2 of `consolidate_memories` (lines 362-401): for each topic group of
at least 3 fading rows, summarize, store the gist via the write path
(`memory_type=semantic, importance=0.7, topics=[topic], skip_dedup=True`),
mark the originals, and record the report entry.  Groups are taken from the
snapshot `fading`; topics are processed in dict iteration order. -/
def compressGroups {E : Type} (sim : E → E → ℚ) (embed : String → E)
    (scoreImp : String → ℚ) (extractTop : String → List String)
    (summarize : List (Memory E) → String) (now : ℚ) (agent : String)
    (fading : List (Memory E)) :
    List String → DB E → DB E × List CompressedEntry
  | [], st => (st, [])
  | t :: ts, st =>
    let group := fading.filter (fun m => m.topics.contains t)
    if 3 ≤ group.length then
      let res := storeMemory sim embed scoreImp extractTop now agent
        (summarize group) MemoryType.semantic (some (7/10)) (some [t])
        none none none none true (23/25) false false st
      let st2 : DB E :=
        { res.2 with memories := markSummarized (group.map Memory.id) res.2.memories }
      let rest := compressGroups sim embed scoreImp extractTop summarize now agent fading ts st2
      (rest.1, CompressedEntry.mk t group.length res.1.id (group.map Memory.id) :: rest.2)
    else
      compressGroups sim embed scoreImp extractTop summarize now agent fading ts st

/-- Step 3 of `consolidate_memories` (lines 404-418): semantic rows with
stability above 0.9 and access count above 10; recorded, never mutated. -/
def promotionScan {E : Type} (agent : String) (mems : List (Memory E)) :
    List (Memory E) :=
  mems.filter (fun m => m.agent_id == agent && !m.is_deleted &&
    (m.memory_type == MemoryType.semantic) &&
    decide ((9:ℚ)/10 < m.stability) && decide (10 < m.access_count))

open Classical in
/-- Step 4 of `consolidate_memories` (lines 421-429): soft-delete the
non-deleted, non-summary rows of the agent whose retention is below 0.05 and
whose `last_accessed` is more than 30 days in the past. -/
noncomputable def softDeleteDormant {E : Type} (agent : String) (now : ℚ)
    (mems : List (Memory E)) : List (Memory E) :=
  mems.map (fun m =>
    if m.agent_id == agent && !m.is_deleted && !m.is_summary &&
        decide (retentionOf now m < 1/20) &&
        decide (m.last_accessed < now - 30 * 86400) then
      { m with is_deleted := true }
    else m)

/-- `consolidate_memories` (memory-utils.py lines 333-437). -/
noncomputable def consolidateMemories {E : Type} (sim : E → E → ℚ)
    (embed : String → E) (scoreImp : String → ℚ)
    (extractTop : String → List String) (summarize : List (Memory E) → String)
    (now : ℚ) (agent : String) (compression_threshold : ℕ) (st : DB E) :
    ConsolidateReport E × DB E :=
  let fading := fadingScan agent now st.memories
  let step2 :=
    if compression_threshold ≤ fading.length then
      compressGroups sim embed scoreImp extractTop summarize now agent fading
        (firstEncounterTopics fading) st
    else (st, [])
  let promotion := promotionScan agent step2.1.memories
  let final : DB E := { step2.1 with memories := softDeleteDormant agent now step2.1.memories }
  (ConsolidateReport.mk
    (fading.map (fun m => (m.id, m.content.take 100, retentionOf now m)))
    step2.2 promotion 0, final)

/-- **C8.** The dormant sweep (step 4 of the consolidator) soft-deletes
exactly the non-deleted, non-summary rows of the agent with retention below
0.05 and `last_accessed` more than 30 days in the past: every row keeps its
id, content, stability and `is_summary` flag, a summary row is returned
untouched, a row is deleted afterwards iff it was deleted before or met all
the sweep conditions, and the row count is unchanged (nothing is
hard-deleted). -/
theorem claim_C8_dormant_sweep (E : Type) (agent : String) (now : ℚ)
    (db : List (Memory E)) :
    (softDeleteDormant agent now db).length = db.length ∧
    List.Forall₂ (fun m m' =>
      m'.id = m.id ∧ m'.agent_id = m.agent_id ∧ m'.content = m.content ∧
      m'.stability = m.stability ∧ m'.is_summary = m.is_summary ∧
      (m.is_summary = true → m' = m) ∧
      (m'.is_deleted = true ↔ (m.is_deleted = true ∨
        (m.agent_id = agent ∧ m.is_summary = false ∧ retentionOf now m < 1/20 ∧
          m.last_accessed < now - 30 * 86400))))
      db (softDeleteDormant agent now db) := by
  have hforall : List.Forall₂ (fun m m' =>
      m'.id = m.id ∧ m'.agent_id = m.agent_id ∧ m'.content = m.content ∧
      m'.stability = m.stability ∧ m'.is_summary = m.is_summary ∧
      (m.is_summary = true → m' = m) ∧
      (m'.is_deleted = true ↔ (m.is_deleted = true ∨
        (m.agent_id = agent ∧ m.is_summary = false ∧ retentionOf now m < 1/20 ∧
          m.last_accessed < now - 30 * 86400))))
      db (softDeleteDormant agent now db) := by
    rw [softDeleteDormant, List.forall₂_map_right_iff, List.forall₂_same]
    intro m _
    by_cases hc : (m.agent_id == agent && !m.is_deleted && !m.is_summary &&
        decide (retentionOf now m < 1/20) &&
        decide (m.last_accessed < now - 30 * 86400)) = true
    · rw [if_pos hc]
      simp only [Bool.and_eq_true, beq_iff_eq, Bool.not_eq_true',
        decide_eq_true_eq] at hc
      refine ⟨rfl, rfl, rfl, rfl, rfl, ?_, ?_⟩
      · intro hs
        rw [hc.1.1.2] at hs
        cases hs
      · constructor
        · intro _
          exact Or.inr ⟨hc.1.1.1.1, hc.1.1.2, hc.1.2, hc.2⟩
        · intro _
          rfl
    · rw [if_neg hc]
      refine ⟨rfl, rfl, rfl, rfl, rfl, fun _ => rfl, ?_⟩
      constructor
      · intro hd
        exact Or.inl hd
      · rintro (hd | ⟨ha, hs, hret, hla⟩)
        · exact hd
        · by_contra hnd
          have hdel : m.is_deleted = false := by
            cases hdd : m.is_deleted
            · rfl
            · exact absurd hdd hnd
          apply hc
          have hret20 : retentionOf now m < (20:ℝ)⁻¹ := by
            rw [show ((20:ℝ))⁻¹ = 1/20 from by norm_num]
            exact hret
          simp [ha, hs, hdel, hret20, hla]
  exact ⟨hforall.length_eq.symm, hforall⟩

theorem compressGroups_topics {E : Type} (sim : E → E → ℚ) (embed : String → E)
    (scoreImp : String → ℚ) (extractTop : String → List String)
    (summarize : List (Memory E) → String) (now : ℚ) (agent : String)
    (fading : List (Memory E)) :
    ∀ (ts : List String) (st : DB E),
      (compressGroups sim embed scoreImp extractTop summarize now agent fading ts st).2.map
          CompressedEntry.topic =
        ts.filter (fun t =>
          decide (3 ≤ (fading.filter (fun m => m.topics.contains t)).length)) := by
  intro ts
  induction ts with
  | nil => intro st; rfl
  | cons t ts ih =>
    intro st
    rw [compressGroups, List.filter_cons]
    by_cases h : 3 ≤ (fading.filter (fun m => m.topics.contains t)).length
    · rw [if_pos h, decide_eq_true h]
      simp only [if_true, List.map_cons]
      rw [ih]
    · rw [if_neg h, decide_eq_false h]
      simp only [Bool.false_eq_true, if_false]
      rw [ih]

theorem consolidate_compressed_proj {E : Type} (sim : E → E → ℚ)
    (embed : String → E) (scoreImp : String → ℚ)
    (extractTop : String → List String) (summarize : List (Memory E) → String)
    (now : ℚ) (agent : String) (ct : ℕ) (st : DB E) :
    (consolidateMemories sim embed scoreImp extractTop summarize now agent ct st).1.compressed =
      (if ct ≤ (fadingScan agent now st.memories).length then
        compressGroups sim embed scoreImp extractTop summarize now agent
          (fadingScan agent now st.memories)
          (firstEncounterTopics (fadingScan agent now st.memories)) st
      else (st, [])).2 := rfl

/-- **C9 (amended).** When the fading set reaches the compression threshold,
the topic groups of size at least 3 are processed in the deterministic order
in which the topics are first encountered while walking the fading rows (the
Python dict preserves insertion order) — not in lexicographic order. -/
theorem claim_C9_amended (E : Type) (sim : E → E → ℚ) (embed : String → E)
    (scoreImp : String → ℚ) (extractTop : String → List String)
    (summarize : List (Memory E) → String) (now : ℚ) (agent : String)
    (ct : ℕ) (st : DB E)
    (h : ct ≤ (fadingScan agent now st.memories).length) :
    (consolidateMemories sim embed scoreImp extractTop summarize now agent ct st).1.compressed.map
        CompressedEntry.topic =
      (firstEncounterTopics (fadingScan agent now st.memories)).filter (fun t =>
        decide (3 ≤ ((fadingScan agent now st.memories).filter
          (fun m => m.topics.contains t)).length)) := by
  rw [consolidate_compressed_proj, if_pos h]
  exact compressGroups_topics sim embed scoreImp extractTop summarize now agent
    (fadingScan agent now st.memories)
    (firstEncounterTopics (fadingScan agent now st.memories)) st

theorem storeMemory_skip_some {E : Type} (sim : E → E → ℚ) (embed : String → E)
    (scoreImp : String → ℚ) (extractTop : String → List String) (now : ℚ)
    (agent content : String) (mt : MemoryType) (imp : ℚ) (topics : List String)
    (ed ex sc ss : Option String) (thr : ℚ) (st : DB E) :
    storeMemory sim embed scoreImp extractTop now agent content mt (some imp)
        (some topics) ed ex sc ss true thr false false st =
      ({ action := "created", id := st.nextId, similarity := none },
       { st with
          nextId := st.nextId + 1,
          memories := st.memories ++
            [newMemoryRow st.nextId agent content (embed content) mt topics now
              ed ex imp sc ss] }) := by
  rw [storeMemory]
  rfl

/-- All the facts claim C7 needs about one report entry against a store. -/
def entryGood {E : Type} (mems : List (Memory E)) (e : CompressedEntry) : Prop :=
  ∀ m ∈ mems, (m.id = e.summary_id → m.summarizes = []) ∧
    (m.id ∈ e.original_ids → m.is_summary = true)

/-- The ids named by a report entry are below the fresh-id counter. -/
def entryBound (n : ℕ) (e : CompressedEntry) : Prop :=
  e.summary_id < n ∧ ∀ i ∈ e.original_ids, i < n

theorem entryBound_mono {n n' : ℕ} (h : n ≤ n') {e : CompressedEntry}
    (hb : entryBound n e) : entryBound n' e :=
  ⟨lt_of_lt_of_le hb.1 h, fun i hi => lt_of_lt_of_le (hb.2 i hi) h⟩

theorem compressGroups_invariant {E : Type} (sim : E → E → ℚ)
    (embed : String → E) (scoreImp : String → ℚ)
    (extractTop : String → List String) (summarize : List (Memory E) → String)
    (now : ℚ) (agent : String) (fading : List (Memory E)) :
    ∀ (ts : List String) (st : DB E),
      (∀ m ∈ st.memories, m.id < st.nextId) →
      (∀ m ∈ fading, m.id < st.nextId) →
      (∀ m ∈ (compressGroups sim embed scoreImp extractTop summarize now agent fading ts st).1.memories,
        m.id < (compressGroups sim embed scoreImp extractTop summarize now agent fading ts st).1.nextId) ∧
      st.nextId ≤ (compressGroups sim embed scoreImp extractTop summarize now agent fading ts st).1.nextId ∧
      (∀ e, entryGood st.memories e → entryBound st.nextId e →
        entryGood (compressGroups sim embed scoreImp extractTop summarize now agent fading ts st).1.memories e) ∧
      (∀ e ∈ (compressGroups sim embed scoreImp extractTop summarize now agent fading ts st).2,
        entryGood (compressGroups sim embed scoreImp extractTop summarize now agent fading ts st).1.memories e) := by
  intro ts
  induction ts with
  | nil =>
    intro st hwf _
    exact ⟨hwf, le_refl _, fun e hg _ => hg, fun e he => absurd he (List.not_mem_nil e)⟩
  | cons t ts ih =>
    intro st hwf hfad
    rw [compressGroups]
    by_cases hlen : 3 ≤ (fading.filter (fun m => m.topics.contains t)).length
    · rw [if_pos hlen]
      simp only [storeMemory_skip_some]
      set gids := (fading.filter (fun m => m.topics.contains t)).map Memory.id with hgids
      set newRow := newMemoryRow st.nextId agent
        (summarize (fading.filter (fun m => m.topics.contains t)))
        (embed (summarize (fading.filter (fun m => m.topics.contains t))))
        MemoryType.semantic [t] now none none (7/10) none none with hnewRow
      set st2 : DB E :=
        { nextId := st.nextId + 1,
          memories := markSummarized gids (st.memories ++ [newRow]),
          links := st.links } with hst2
      have hgid_lt : ∀ i ∈ gids, i < st.nextId := by
        intro i hi
        rw [hgids] at hi
        rcases List.mem_map.mp hi with ⟨m, hm, rfl⟩
        exact hfad m (List.mem_filter.mp hm).1
      have hmark_shape : ∀ m' ∈ st2.memories, ∃ m,
          (m ∈ st.memories ∨ m = newRow) ∧ m'.id = m.id ∧
          m'.summarizes = m.summarizes ∧
          (m'.is_summary = m.is_summary ∨ m'.is_summary = true) ∧
          (m.id ∈ gids → m'.is_summary = true) := by
        intro m' hm'
        rw [hst2] at hm'
        simp only [markSummarized] at hm'
        rcases List.mem_map.mp hm' with ⟨m, hm, rfl⟩
        refine ⟨m, ?_, ?_, ?_, ?_, ?_⟩
        · rcases List.mem_append.mp hm with h | h
          · exact Or.inl h
          · exact Or.inr (List.mem_singleton.mp h)
        · by_cases hin : gids.contains m.id = true
          · rw [if_pos hin]
          · rw [if_neg hin]
        · by_cases hin : gids.contains m.id = true
          · rw [if_pos hin]
          · rw [if_neg hin]
        · by_cases hin : gids.contains m.id = true
          · rw [if_pos hin]
            exact Or.inr rfl
          · rw [if_neg hin]
            exact Or.inl rfl
        · intro hmem
          have : gids.contains m.id = true := List.elem_eq_true_of_mem hmem
          rw [if_pos this]
      have hwf2 : ∀ m ∈ st2.memories, m.id < st2.nextId := by
        intro m' hm'
        rcases hmark_shape m' hm' with ⟨m, hsrc, hid, _, _, _⟩
        rw [hst2]
        rcases hsrc with h | h
        · rw [hid]
          exact lt_trans (hwf m h) (Nat.lt_succ_self _)
        · rw [hid, h, hnewRow]
          exact Nat.lt_succ_self _
      have hfad2 : ∀ m ∈ fading, m.id < st2.nextId := by
        intro m hm
        rw [hst2]
        exact lt_trans (hfad m hm) (Nat.lt_succ_self _)
      have hpres : ∀ e, entryGood st.memories e → entryBound st.nextId e →
          entryGood st2.memories e := by
        intro e hg hb m' hm'
        rcases hmark_shape m' hm' with ⟨m, hsrc, hid, hsumz, hsumm, _⟩
        constructor
        · intro hide
          rw [hsumz]
          rcases hsrc with h | h
          · exact ((hg m h).1 (by rw [← hid]; exact hide))
          · rw [h, hnewRow]
            rfl
        · intro hide
          rcases hsrc with h | h
          · have hms := (hg m h).2 (by rw [← hid]; exact hide)
            rcases hsumm with hs | hs
            · rw [hs]; exact hms
            · exact hs
          · exfalso
            have : m'.id < st.nextId := hb.2 m'.id hide
            rw [hid, h, hnewRow] at this
            exact lt_irrefl _ this
      have hnew_good : entryGood st2.memories
          (CompressedEntry.mk t (fading.filter (fun m => m.topics.contains t)).length
            st.nextId gids) := by
        intro m' hm'
        rcases hmark_shape m' hm' with ⟨m, hsrc, hid, hsumz, _, hmark⟩
        constructor
        · intro hide
          rw [hsumz]
          rcases hsrc with h | h
          · exfalso
            have := hwf m h
            rw [← hid] at this
            rw [hide] at this
            exact lt_irrefl _ this
          · rw [h, hnewRow]
            rfl
        · intro hide
          exact hmark (by rw [← hid]; exact hide)
      have hnew_bound : entryBound st2.nextId
          (CompressedEntry.mk t (fading.filter (fun m => m.topics.contains t)).length
            st.nextId gids) := by
        refine ⟨by rw [hst2]; exact Nat.lt_succ_self _, ?_⟩
        intro i hi
        rw [hst2]
        exact lt_trans (hgid_lt i hi) (Nat.lt_succ_self _)
      obtain ⟨ihwf, ihmono, ihpres, ihentries⟩ := ih st2 hwf2 hfad2
      refine ⟨ihwf, ?_, ?_, ?_⟩
      · exact le_trans (by rw [hst2]; exact Nat.le_succ _) ihmono
      · intro e hg hb
        exact ihpres e (hpres e hg hb) (entryBound_mono (by rw [hst2]; exact Nat.le_succ _) hb)
      · intro e he
        rcases List.mem_cons.mp he with h | h
        · rw [h]
          exact ihpres _ hnew_good hnew_bound
        · exact ihentries e h
    · rw [if_neg hlen]
      exact ih st hwf hfad

theorem softDeleteDormant_shape {E : Type} (agent : String) (now : ℚ)
    (mems : List (Memory E)) :
    ∀ m' ∈ softDeleteDormant agent now mems, ∃ m ∈ mems,
      m'.id = m.id ∧ m'.summarizes = m.summarizes ∧ m'.is_summary = m.is_summary := by
  intro m' hm'
  rw [softDeleteDormant] at hm'
  rcases List.mem_map.mp hm' with ⟨m, hm, rfl⟩
  refine ⟨m, hm, ?_⟩
  by_cases hc : (m.agent_id == agent && !m.is_deleted && !m.is_summary &&
      decide (retentionOf now m < 1/20) &&
      decide (m.last_accessed < now - 30 * 86400)) = true
  · rw [if_pos hc]
    exact ⟨rfl, rfl, rfl⟩
  · rw [if_neg hc]
    exact ⟨rfl, rfl, rfl⟩

/-- **C7 (amended).** Every summary memory created by the consolidator's
compression step has an *empty* `summarizes` set — the INSERT never fills
that column — and every id in the report entry's `original_ids` refers to a
memory whose `is_summary` flag has been set to true in the final store. -/
theorem claim_C7_amended (E : Type) (sim : E → E → ℚ) (embed : String → E)
    (scoreImp : String → ℚ) (extractTop : String → List String)
    (summarize : List (Memory E) → String) (now : ℚ) (agent : String)
    (ct : ℕ) (st : DB E) (hwf : ∀ m ∈ st.memories, m.id < st.nextId) :
    ∀ e ∈ (consolidateMemories sim embed scoreImp extractTop summarize now agent ct st).1.compressed,
      ∀ m ∈ (consolidateMemories sim embed scoreImp extractTop summarize now agent ct st).2.memories,
        (m.id = e.summary_id → m.summarizes = []) ∧
        (m.id ∈ e.original_ids → m.is_summary = true) := by
  intro e he m hm
  rw [consolidate_compressed_proj] at he
  have hmem : (consolidateMemories sim embed scoreImp extractTop summarize now agent ct st).2.memories =
      softDeleteDormant agent now
        (if ct ≤ (fadingScan agent now st.memories).length then
          compressGroups sim embed scoreImp extractTop summarize now agent
            (fadingScan agent now st.memories)
            (firstEncounterTopics (fadingScan agent now st.memories)) st
        else (st, [])).1.memories := rfl
  rw [hmem] at hm
  by_cases hct : ct ≤ (fadingScan agent now st.memories).length
  · rw [if_pos hct] at he hm
    have hfad : ∀ x ∈ fadingScan agent now st.memories, x.id < st.nextId := by
      intro x hx
      exact hwf x (List.mem_filter.mp hx).1
    obtain ⟨_, _, _, hentries⟩ :=
      compressGroups_invariant sim embed scoreImp extractTop summarize now agent
        (fadingScan agent now st.memories)
        (firstEncounterTopics (fadingScan agent now st.memories)) st hwf hfad
    have hgood := hentries e he
    rcases softDeleteDormant_shape agent now _ m hm with ⟨m0, hm0, hid, hsumz, hsumm⟩
    have := hgood m0 hm0
    constructor
    · intro hide
      rw [hsumz]
      exact this.1 (by rw [← hid]; exact hide)
    · intro hide
      rw [hsumm]
      exact this.2 (by rw [← hid]; exact hide)
  · rw [if_neg hct] at he
    exact absurd he (List.not_mem_nil e)

/-- A constant summarizer port for the consolidation scenario. -/
def summarizeC : List (Memory ℚ) → String := fun _ => "gist"

/-- A fading row of the consolidation scenario: agent `main`, last accessed
90 days before the consolidation instant, retention `exp (-5) < 0.2`. -/
def fadeRow (i : ℕ) (c : String) (tp : List String) : Memory ℚ :=
  newMemoryRow i "main" c 0 MemoryType.episodic tp 0 none none (1/2) none none

/-- The consolidation scenario store: six fading rows, the first three with
topic `"z"`, the last three with topic `"a"` — `"z"` is encountered first
but sorts after `"a"`. -/
def dbF : DB ℚ :=
  DB.mk 6
    [fadeRow 0 "c0" ["z"], fadeRow 1 "c1" ["z"], fadeRow 2 "c2" ["z"],
     fadeRow 3 "c3" ["a"], fadeRow 4 "c4" ["a"], fadeRow 5 "c5" ["a"]] []

/-- The consolidation scenario call at time 7776000 (90 days) with the
default compression threshold 5. -/
noncomputable def consolidateC : ConsolidateReport ℚ × DB ℚ :=
  consolidateMemories simOne embedZero constScore constTopics summarizeC
    7776000 "main" 5 dbF

theorem retentionOf_fadeRow (i : ℕ) (c : String) (tp : List String) :
    retentionOf 7776000 (fadeRow i c tp) = Real.exp (-5) := by
  rw [fadeRow, newMemoryRow, retentionOf, calculate_retention]
  push_cast
  rw [if_neg (by norm_num)]
  rw [show -(((7776000:ℝ) - 0) / 86400) / ((3:ℝ)/10 * (1 + 1/2 * 2) * 30) = -5 from by norm_num]
  rw [min_eq_right (by rw [Real.exp_le_one_iff]; norm_num)]
  rw [max_eq_right (Real.exp_nonneg _)]

theorem fadeRow_pred (i : ℕ) (c : String) (tp : List String) :
    ((fadeRow i c tp).agent_id == "main" && !(fadeRow i c tp).is_deleted &&
      !(fadeRow i c tp).is_summary &&
      decide (retentionOf 7776000 (fadeRow i c tp) < 1/5)) = true := by
  have h4 : decide (retentionOf 7776000 (fadeRow i c tp) < (1:ℝ)/5) = true :=
    decide_eq_true (by rw [retentionOf_fadeRow]; exact exp_neg_five_lt_fifth)
  have h1 : ((fadeRow i c tp).agent_id == "main") = true := by
    simp [fadeRow, newMemoryRow]
  have h2 : (!(fadeRow i c tp).is_deleted) = true := by
    simp [fadeRow, newMemoryRow]
  have h3 : (!(fadeRow i c tp).is_summary) = true := by
    simp [fadeRow, newMemoryRow]
  rw [h1, h2, h3, h4]
  rfl

theorem fadingC_eval : fadingScan "main" 7776000 dbF.memories = dbF.memories := by
  rw [fadingScan]
  rw [show dbF.memories =
    [fadeRow 0 "c0" ["z"], fadeRow 1 "c1" ["z"], fadeRow 2 "c2" ["z"],
     fadeRow 3 "c3" ["a"], fadeRow 4 "c4" ["a"], fadeRow 5 "c5" ["a"]] from rfl]
  simp only [List.filter_cons, List.filter_nil, fadeRow_pred, if_true]

theorem topicsC_eval : firstEncounterTopics dbF.memories = ["z", "a"] := by
  rw [firstEncounterTopics]
  rw [show dbF.memories.flatMap Memory.topics = ["z", "z", "z", "a", "a", "a"] from rfl]
  rw [dedupOn]
  simp [dedupOnAux]

/-- A fading row after the consolidator marks it as absorbed. -/
def markedRow (i : ℕ) (c : String) (tp : List String) : Memory ℚ :=
  { fadeRow i c tp with is_summary := true }

/-- The gist stored for topic `"z"` (id 6, the first fresh id). -/
def zSummaryRow : Memory ℚ :=
  newMemoryRow 6 "main" "gist" 0 MemoryType.semantic ["z"] 7776000 none none
    (7/10) none none

/-- The gist stored for topic `"a"` (id 7). -/
def aSummaryRow : Memory ℚ :=
  newMemoryRow 7 "main" "gist" 0 MemoryType.semantic ["a"] 7776000 none none
    (7/10) none none

/-- The rows of the consolidation scenario after step 2. -/
def consolidatedRows : List (Memory ℚ) :=
  [markedRow 0 "c0" ["z"], markedRow 1 "c1" ["z"], markedRow 2 "c2" ["z"],
   markedRow 3 "c3" ["a"], markedRow 4 "c4" ["a"], markedRow 5 "c5" ["a"],
   zSummaryRow, aSummaryRow]

theorem step2C_eval :
    compressGroups simOne embedZero constScore constTopics summarizeC 7776000
        "main" dbF.memories ["z", "a"] dbF =
      (DB.mk 8 consolidatedRows [],
       [CompressedEntry.mk "z" 3 6 [0, 1, 2], CompressedEntry.mk "a" 3 7 [3, 4, 5]]) := rfl

theorem sweepC_eval :
    softDeleteDormant "main" 7776000 consolidatedRows = consolidatedRows := by
  have hmark : ∀ (i : ℕ) (c : String) (tp : List String),
      ((markedRow i c tp).agent_id == "main" && !(markedRow i c tp).is_deleted &&
        !(markedRow i c tp).is_summary &&
        decide (retentionOf 7776000 (markedRow i c tp) < 1/20) &&
        decide ((markedRow i c tp).last_accessed < 7776000 - 30 * 86400)) = false := by
    intro i c tp
    have h3 : (!(markedRow i c tp).is_summary) = false := by
      simp [markedRow, fadeRow, newMemoryRow]
    rw [h3]
    simp
  have hz : ((zSummaryRow).agent_id == "main" && !(zSummaryRow).is_deleted &&
      !(zSummaryRow).is_summary &&
      decide (retentionOf 7776000 zSummaryRow < 1/20) &&
      decide ((zSummaryRow).last_accessed < 7776000 - 30 * 86400)) = false := by
    have h5 : decide ((zSummaryRow).last_accessed < (7776000:ℚ) - 30 * 86400) = false := by
      rw [show (zSummaryRow).last_accessed = (7776000:ℚ) from rfl]
      exact decide_eq_false (by norm_num)
    rw [h5]
    simp
  have ha : ((aSummaryRow).agent_id == "main" && !(aSummaryRow).is_deleted &&
      !(aSummaryRow).is_summary &&
      decide (retentionOf 7776000 aSummaryRow < 1/20) &&
      decide ((aSummaryRow).last_accessed < 7776000 - 30 * 86400)) = false := by
    have h5 : decide ((aSummaryRow).last_accessed < (7776000:ℚ) - 30 * 86400) = false := by
      rw [show (aSummaryRow).last_accessed = (7776000:ℚ) from rfl]
      exact decide_eq_false (by norm_num)
    rw [h5]
    simp
  rw [consolidatedRows, softDeleteDormant]
  simp only [List.map_cons, List.map_nil, hmark, hz, ha, Bool.false_eq_true, if_false]

theorem compressedC_eval :
    consolidateC.1.compressed =
      [CompressedEntry.mk "z" 3 6 [0, 1, 2], CompressedEntry.mk "a" 3 7 [3, 4, 5]] := by
  rw [consolidateC, consolidate_compressed_proj, fadingC_eval, topicsC_eval]
  rw [if_pos (by decide : 5 ≤ dbF.memories.length)]
  rw [step2C_eval]

theorem finalC_mem_eval : consolidateC.2.memories = consolidatedRows := by
  rw [show consolidateC.2.memories =
      softDeleteDormant "main" 7776000
        ((if 5 ≤ (fadingScan "main" 7776000 dbF.memories).length then
          compressGroups simOne embedZero constScore constTopics summarizeC
            7776000 "main" (fadingScan "main" 7776000 dbF.memories)
            (firstEncounterTopics (fadingScan "main" 7776000 dbF.memories)) dbF
        else (dbF, [])).1.memories) from rfl]
  rw [fadingC_eval, topicsC_eval]
  rw [if_pos (by decide : 5 ≤ dbF.memories.length)]
  rw [step2C_eval]
  exact sweepC_eval

/-- **C7 (counterexample).** In the consolidation scenario the compression
step creates the summaries with ids 6 and 7, yet every row of the final
store — the two new summaries included — has an *empty* `summarizes` set:
the INSERT of `store_memory` never writes that column. -/
theorem claim_C7_counterexample :
    consolidateC.1.compressed.map CompressedEntry.summary_id = [6, 7] ∧
    consolidateC.2.memories.map (fun m => (m.id, m.summarizes)) =
      [(0, []), (1, []), (2, []), (3, []), (4, []), (5, []), (6, []), (7, [])] := by
  constructor
  · rw [compressedC_eval]
    rfl
  · rw [finalC_mem_eval]
    rfl

/-- Witness for C7 (amended): the `"z"` report entry and the first absorbed
original of the consolidation scenario. -/
theorem claim_C7_witness :
    ((markedRow 0 "c0" ["z"]).id = (CompressedEntry.mk "z" 3 6 [0, 1, 2]).summary_id →
      (markedRow 0 "c0" ["z"]).summarizes = []) ∧
    ((markedRow 0 "c0" ["z"]).id ∈ (CompressedEntry.mk "z" 3 6 [0, 1, 2]).original_ids →
      (markedRow 0 "c0" ["z"]).is_summary = true) := by
  refine claim_C7_amended ℚ simOne embedZero constScore constTopics summarizeC
    7776000 "main" 5 dbF ?_ (CompressedEntry.mk "z" 3 6 [0, 1, 2]) ?_
    (markedRow 0 "c0" ["z"]) ?_
  · intro m hm
    rw [show dbF.memories =
      [fadeRow 0 "c0" ["z"], fadeRow 1 "c1" ["z"], fadeRow 2 "c2" ["z"],
       fadeRow 3 "c3" ["a"], fadeRow 4 "c4" ["a"], fadeRow 5 "c5" ["a"]] from rfl] at hm
    rw [show dbF.nextId = 6 from rfl]
    simp only [List.mem_cons, List.not_mem_nil, or_false] at hm
    rcases hm with rfl | rfl | rfl | rfl | rfl | rfl <;>
      simp [fadeRow, newMemoryRow]
  · rw [show (consolidateMemories simOne embedZero constScore constTopics
      summarizeC 7776000 "main" 5 dbF).1.compressed = consolidateC.1.compressed from rfl]
    rw [compressedC_eval]
    exact List.mem_cons_self _ _
  · rw [show (consolidateMemories simOne embedZero constScore constTopics
      summarizeC 7776000 "main" 5 dbF).2.memories = consolidateC.2.memories from rfl]
    rw [finalC_mem_eval, consolidatedRows]
    exact List.mem_cons_self _ _

/-- **C9 (counterexample).** In the consolidation scenario the two
qualifying topic groups are processed in first-encounter order
`["z", "a"]`, which is not lexicographic order. -/
theorem claim_C9_counterexample :
    consolidateC.1.compressed.map CompressedEntry.topic = ["z", "a"] ∧
    ¬ List.Sorted (fun a b : String => a ≤ b) ["z", "a"] := by
  constructor
  · rw [compressedC_eval]
    rfl
  · intro h
    rcases List.pairwise_cons.mp h with ⟨h1, _⟩
    exact absurd (h1 "a" (List.mem_singleton.mpr rfl)) (by simp; decide)

/-- Witness for C9 (amended): the consolidation scenario, whose fading set
has six rows, above the threshold 5. -/
theorem claim_C9_witness :
    (consolidateMemories simOne embedZero constScore constTopics summarizeC
        7776000 "main" 5 dbF).1.compressed.map CompressedEntry.topic =
      (firstEncounterTopics (fadingScan "main" 7776000 dbF.memories)).filter (fun t =>
        decide (3 ≤ ((fadingScan "main" 7776000 dbF.memories).filter
          (fun m => m.topics.contains t)).length)) :=
  claim_C9_amended ℚ simOne embedZero constScore constTopics summarizeC
    7776000 "main" 5 dbF (by rw [fadingC_eval]; decide)

end CogMem
